import Mathlib

set_option autoImplicit false

/-
Shallow embedding of the plugin subsystem of the locust_framework repository:
src/plugins/plugin_interface.py, src/plugins/plugin_loader.py and
src/plugins/plugin_manager.py.

Python dicts are modelled as association lists with first-match lookup,
Python sets as lists observed through membership, and dynamic behaviour of
plugin code (module loading, the abstract callbacks of PluginInterface
subclasses) as boolean behaviour flags carried by the loaded class record.
-/

namespace Plugins

/-- Configuration dictionaries (plugin configs) as association lists of
string keys and string values, observed through first-match lookup. -/
abbrev Config := List (String × String)

/-- First-match association-list lookup, the model of Python dict indexing. -/
def lookupA {α : Type} : List (String × α) → String → Option α
  | [], _ => none
  | (k2, v) :: rest, k => if k2 = k then some v else lookupA rest k

/-- Dict assignment d[k] = v: replace the first binding of k, or append. -/
def insertA {α : Type} : List (String × α) → String → α → List (String × α)
  | [], k, v => [(k, v)]
  | (k2, v2) :: rest, k, v =>
    if k2 = k then (k, v) :: rest else (k2, v2) :: insertA rest k v

/-- Dict deletion del d[k]: drop every binding of k. -/
def eraseA {α : Type} : List (String × α) → String → List (String × α)
  | [], _ => []
  | (k2, v) :: rest, k =>
    if k2 = k then eraseA rest k else (k2, v) :: eraseA rest k

/-- The key list of a dict, the model of d.keys(). -/
def keysA {α : Type} (l : List (String × α)) : List String :=
  l.map (fun kv => kv.1)

/-- Python dict.update(upd) on base, observed through lookupA: bindings of
upd win over bindings of base. -/
def cfgUpdate (base upd : Config) : Config :=
  upd ++ base

theorem lookupA_insertA_self {α : Type} (l : List (String × α)) (k : String) (v : α) :
    lookupA (insertA l k v) k = some v := by
  induction l with
  | nil => simp [insertA, lookupA]
  | cons kv rest ih =>
    obtain ⟨k2, v2⟩ := kv
    by_cases h : k2 = k <;> simp [insertA, lookupA, h, ih]

theorem lookupA_insertA_ne {α : Type} (l : List (String × α)) {k k' : String} (v : α)
    (hne : k' ≠ k) : lookupA (insertA l k v) k' = lookupA l k' := by
  have hne2 : k ≠ k' := Ne.symm hne
  induction l with
  | nil => simp [insertA, lookupA, hne2]
  | cons kv rest ih =>
    obtain ⟨k2, v2⟩ := kv
    by_cases h : k2 = k
    · subst h
      simp [insertA, lookupA, hne2]
    · by_cases h2 : k2 = k' <;> simp [insertA, lookupA, h, h2, hne, ih]

theorem lookupA_eraseA_self {α : Type} (l : List (String × α)) (k : String) :
    lookupA (eraseA l k) k = none := by
  induction l with
  | nil => simp [eraseA, lookupA]
  | cons kv rest ih =>
    obtain ⟨k2, v2⟩ := kv
    by_cases h : k2 = k <;> simp [eraseA, lookupA, h, ih]

theorem lookupA_eraseA_ne {α : Type} (l : List (String × α)) {k k' : String}
    (hne : k' ≠ k) : lookupA (eraseA l k) k' = lookupA l k' := by
  induction l with
  | nil => simp [eraseA, lookupA]
  | cons kv rest ih =>
    obtain ⟨k2, v2⟩ := kv
    by_cases h : k2 = k
    · subst h
      simp [eraseA, lookupA, Ne.symm hne, ih]
    · by_cases h2 : k2 = k' <;> simp [eraseA, lookupA, h, h2, hne, ih]

theorem mem_keysA_of_lookupA {α : Type} {l : List (String × α)} {k : String} {v : α}
    (h : lookupA l k = some v) : k ∈ keysA l := by
  induction l with
  | nil => simp [lookupA] at h
  | cons kv rest ih =>
    obtain ⟨k2, v2⟩ := kv
    by_cases h2 : k2 = k
    · subst h2; simp [keysA]
    · simp only [lookupA, if_neg h2] at h
      simp only [keysA, List.map_cons, List.mem_cons]
      exact Or.inr (ih h)

theorem contains_keysA_iff {α : Type} (l : List (String × α)) (k : String) :
    (keysA l).contains k = (lookupA l k).isSome := by
  induction l with
  | nil => simp [keysA, lookupA]
  | cons kv rest ih =>
    obtain ⟨k2, v2⟩ := kv
    by_cases h : k2 = k
    · subst h
      simp [keysA, lookupA]
    · simp only [keysA, List.map_cons, List.contains_cons, lookupA, if_neg h]
      have hb : (k == k2) = false := by
        simp [Ne.symm h]
      simp only [hb, Bool.false_or]
      simpa [keysA] using ih

theorem lookupA_append {α : Type} (l1 l2 : List (String × α)) (k : String) :
    lookupA (l1 ++ l2) k = ((lookupA l1 k).orElse (fun _ => lookupA l2 k)) := by
  induction l1 with
  | nil => simp [lookupA]
  | cons kv rest ih =>
    obtain ⟨k2, v2⟩ := kv
    by_cases h : k2 = k <;> simp [lookupA, h, ih, Option.orElse]

/-- Lookup through a dict.update: the updating bindings win. -/
theorem lookupA_cfgUpdate (base upd : Config) (k : String) :
    lookupA (cfgUpdate base upd) k =
      ((lookupA upd k).orElse (fun _ => lookupA base k)) :=
  lookupA_append upd base k

/-- PluginInfo from plugin_interface.py: the descriptor record a plugin
exposes. The config_schema map is carried as an association list. -/
structure PluginInfo where
  name : String
  version : String
  description : String
  author : String
  category : String
  dependencies : List String
  config_schema : List (String × String)
  deriving DecidableEq, Repr

/-- A loaded plugin class. The descriptor is the PluginInfo the class
exposes; the Bool fields model the dynamic behaviour of the subclass
callbacks that the manager and loader observe only through success or
raised exception: initOk is the outcome of instance construction plus
the abstract method named initialize (false covers both a false return and a
raise), disableRaises and cleanupRaises say whether the overridable
disable and cleanup callbacks raise. isLocust and isMonitor are the
isinstance checks against LocustPlugin and MonitorPlugin, and the four
hasOn fields are the hasattr checks made during event registration
(they are true for every LocustPlugin since the base class defines the
methods, but are kept as the code keeps them). -/
structure PluginClass where
  info : PluginInfo
  initOk : Bool
  disableRaises : Bool
  cleanupRaises : Bool
  isLocust : Bool
  isMonitor : Bool
  hasOnUserStart : Bool
  hasOnUserStop : Bool
  hasOnRequestSuccess : Bool
  hasOnRequestFailure : Bool
  deriving DecidableEq, Repr

/-- A live plugin instance: PluginInterface state. instId models Python
object identity (handlers are matched by handler.__self__ == instance);
enabledFlag is the private enabled attribute toggled by enable and
disable; config is the private config dict. The method named initialize
stores the given config (as the builtin CSVReportPlugin does via
configure on the empty initial dict). -/
structure Instance where
  instId : Nat
  cls : PluginClass
  enabledFlag : Bool
  config : Config
  deriving DecidableEq, Repr

/-- The capability-specific bound methods that the manager registers as
event handlers (plugin_manager.py register_plugin_events). -/
inductive Method where
  | onTestStart
  | onTestStop
  | onUserStart
  | onUserStop
  | onRequestSuccess
  | onRequestFailure
  | startMonitoring
  | stopMonitoring
  deriving DecidableEq, Repr

/-- A routing-table entry: either a bound method of a plugin instance
(identified by the instance identity and the method), or a free callable
registered by an outside collaborator, which has no bound self. -/
inductive Handler where
  | bound (instId : Nat) (m : Method)
  | free (tag : Nat)
  deriving DecidableEq, Repr

/-- handler.__self__ == instance, the ownership test used when a plugin
is disabled: true only for a bound method of that very instance. -/
def Handler.ownedBy : Handler → Nat → Bool
  | .bound i _, j => i == j
  | .free _, _ => false

/-- The environment of dynamic loading: discovered is the list of plugin
names discovery returns from the filesystem scan; loadResult gives, for
a name not yet loaded, the outcome of find file + import module + find
class + validate class + merge sidecar metadata: none models any failure
along that pipeline, some gives the class and the merged metadata
(modelled by the descriptor fields the manager later reads from it). -/
structure Env where
  discovered : List String
  loadResult : String → Option (PluginClass × PluginInfo)

/-- PluginLoader state: loaded_plugins maps name to class, plugin_instances
maps name to live instance, plugin_metadata maps name to the merged
metadata; nextId is a fresh-identity counter modelling Python object
identity of newly constructed instances. -/
structure LoaderState where
  loaded_plugins : List (String × PluginClass)
  plugin_instances : List (String × Instance)
  plugin_metadata : List (String × PluginInfo)
  nextId : Nat
  deriving DecidableEq, Repr

namespace PluginLoader

/-- The empty loader built by PluginLoader.__init__. -/
def empty : LoaderState :=
  { loaded_plugins := [], plugin_instances := [], plugin_metadata := [], nextId := 0 }

/-- PluginLoader.load_plugin: an already loaded name is returned as is
with a warning; otherwise the find/import/validate pipeline either fails
(none) or registers the class and its metadata. -/
def load_plugin (env : Env) (s : LoaderState) (name : String) :
    LoaderState × Option PluginClass :=
  match lookupA s.loaded_plugins name with
  | some cls => (s, some cls)
  | none =>
    match env.loadResult name with
    | none => (s, none)
    | some (cls, md) =>
      ({ s with loaded_plugins := insertA s.loaded_plugins name cls,
                plugin_metadata := insertA s.plugin_metadata name md }, some cls)

/-- PluginLoader.load_all_plugins: discovery then load of each discovered
name; per-name failures are tolerated. -/
def load_all_plugins (env : Env) (s : LoaderState) : LoaderState :=
  env.discovered.foldl (fun acc n => (load_plugin env acc n).1) s

/-- PluginLoader.unload_plugin: when an instance exists, cleanup runs
inside a try block, and the deletion of the instance entry is inside the
same try after the cleanup call, so a raising cleanup leaves the
instance in the map; the loaded class and the metadata entries are
deleted in every case. -/
def unload_plugin (s : LoaderState) (name : String) : LoaderState :=
  let s1 :=
    match lookupA s.plugin_instances name with
    | some inst =>
      if inst.cls.cleanupRaises then s
      else { s with plugin_instances := eraseA s.plugin_instances name }
    | none => s
  { s1 with loaded_plugins := eraseA s1.loaded_plugins name,
            plugin_metadata := eraseA s1.plugin_metadata name }

/-- PluginLoader.create_plugin_instance: refuses when the name is not
loaded; returns the existing instance with a warning when one exists;
otherwise constructs the class and initializes it with the given config,
registering the instance only on success. -/
def create_plugin_instance (s : LoaderState) (name : String) (cfg : Config) :
    LoaderState × Option Instance :=
  match lookupA s.loaded_plugins name with
  | none => (s, none)
  | some cls =>
    match lookupA s.plugin_instances name with
    | some inst => (s, some inst)
    | none =>
      if cls.initOk then
        let inst : Instance :=
          { instId := s.nextId, cls := cls, enabledFlag := false, config := cfg }
        ({ s with plugin_instances := insertA s.plugin_instances name inst,
                  nextId := s.nextId + 1 }, some inst)
      else (s, none)

/-- PluginLoader.get_plugin_instance: plain map lookup, no enabled check. -/
def get_plugin_instance (s : LoaderState) (name : String) : Option Instance :=
  lookupA s.plugin_instances name

/-- PluginLoader.reload_plugin: refuses when the name is not loaded;
snapshots the current instance config when an instance exists, unloads,
reloads, and recreates an instance only when the snapshotted config dict
is truthy, i.e. nonempty. -/
def reload_plugin (env : Env) (s : LoaderState) (name : String) :
    LoaderState × Bool :=
  match lookupA s.loaded_plugins name with
  | none => (s, false)
  | some _ =>
    let cfg : Config :=
      match lookupA s.plugin_instances name with
      | some inst => inst.config
      | none => []
    let s1 := unload_plugin s name
    match load_plugin env s1 name with
    | (s2, some _) =>
      let s3 := if cfg.isEmpty then s2 else (create_plugin_instance s2 name cfg).1
      (s3, true)
    | (s2, none) => (s2, false)

end PluginLoader

/-- The persisted config document plugin_config.json: top-level keys
enabled_plugins and plugin_configs. -/
structure PersistedState where
  enabled_plugins : List String
  plugin_configs : List (String × Config)
  deriving DecidableEq, Repr

/-- PluginManager state: the owned loader, the enabled-name set (a Python
set, modelled as a list observed through membership), the persisted
per-plugin configs, and the event routing table event name to ordered
handler list (a defaultdict of lists). -/
structure ManagerState where
  loader : LoaderState
  enabled_plugins : List String
  plugin_configs : List (String × Config)
  event_handlers : List (String × List Handler)
  deriving DecidableEq, Repr

namespace PluginManager

/-- The ordered handler list registered for an event:
event_handlers.get(event_name, []). -/
def handlersFor (s : ManagerState) (ev : String) : List Handler :=
  (lookupA s.event_handlers ev).getD []

/-- set.add on the enabled-name set. -/
def insertS (l : List String) (n : String) : List String :=
  if n ∈ l then l else n :: l

/-- set.discard on the enabled-name set. -/
def removeS (l : List String) (n : String) : List String :=
  l.filter (fun x => x != n)

/-- Write an instance back at its name in the loader map; models in-place
mutation of the shared instance object. -/
def setInstance (s : ManagerState) (name : String) (inst : Instance) : ManagerState :=
  { s with loader :=
      { s.loader with plugin_instances := insertA s.loader.plugin_instances name inst } }

/-- PluginManager.register_event_handler: append the handler to the
defaultdict list for the event. -/
def register_event_handler (s : ManagerState) (ev : String) (h : Handler) : ManagerState :=
  { s with event_handlers := insertA s.event_handlers ev (handlersFor s ev ++ [h]) }

/-- PluginManager.register_plugin_events: for a LocustPlugin instance,
register the test lifecycle bound methods, the four request and user
callbacks guarded by hasattr; for a MonitorPlugin instance, the two
monitoring bound methods. -/
def register_plugin_events (s : ManagerState) (inst : Instance) : ManagerState :=
  let s1 :=
    if inst.cls.isLocust then
      let a := register_event_handler s "test_start" (.bound inst.instId .onTestStart)
      let b := register_event_handler a "test_stop" (.bound inst.instId .onTestStop)
      let c := if inst.cls.hasOnUserStart then
          register_event_handler b "user_start" (.bound inst.instId .onUserStart) else b
      let d := if inst.cls.hasOnUserStop then
          register_event_handler c "user_stop" (.bound inst.instId .onUserStop) else c
      let e := if inst.cls.hasOnRequestSuccess then
          register_event_handler d "request_success" (.bound inst.instId .onRequestSuccess) else d
      if inst.cls.hasOnRequestFailure then
        register_event_handler e "request_failure" (.bound inst.instId .onRequestFailure) else e
    else s
  if inst.cls.isMonitor then
    let f := register_event_handler s1 "start_monitoring" (.bound inst.instId .startMonitoring)
    register_event_handler f "stop_monitoring" (.bound inst.instId .stopMonitoring)
  else s1

/-- PluginManager.unregister_plugin_events: looks the instance up in the
loader; with no instance nothing is removed; otherwise every handler
whose bound self is that instance is removed from every event list. -/
def unregister_plugin_events (s : ManagerState) (name : String) : ManagerState :=
  match lookupA s.loader.plugin_instances name with
  | none => s
  | some inst =>
    { s with event_handlers :=
        s.event_handlers.map (fun p => (p.1, p.2.filter (fun h => !(h.ownedBy inst.instId)))) }

/-- The effective config of enable_plugin: config or
self.plugin_configs.get(plugin_name, {}), where a None argument and an
empty dict argument are both falsy. -/
def effConfig (s : ManagerState) (name : String) (cfgOpt : Option Config) : Config :=
  match cfgOpt with
  | some c => if c.isEmpty then (lookupA s.plugin_configs name).getD [] else c
  | none => (lookupA s.plugin_configs name).getD []

/-- PluginManager.enable_plugin: already enabled is a warned no-op success;
otherwise resolve the effective config, ask the loader for an instance
(refusing on failure), set the instance enabled flag, add the name to the
enabled set and register the capability handlers of the instance. No
dependency validation happens here. -/
def enable_plugin (s : ManagerState) (name : String) (cfgOpt : Option Config) :
    ManagerState × Bool :=
  if name ∈ s.enabled_plugins then (s, true)
  else
    let plugin_config := effConfig s name cfgOpt
    match PluginLoader.create_plugin_instance s.loader name plugin_config with
    | (l2, none) => ({ s with loader := l2 }, false)
    | (l2, some inst) =>
      let inst2 := { inst with enabledFlag := true }
      let s2 := setInstance { s with loader := l2 } name inst2
      let s3 := { s2 with enabled_plugins := insertS s2.enabled_plugins name }
      (register_plugin_events s3 inst2, true)

/-- PluginManager.disable_plugin: not enabled is a warned no-op success;
with an instance, instance.disable() then instance.cleanup() run inside
one try block -- a raise is caught, logged and answered with False,
leaving the routing table and the enabled set untouched (the disable
flag flip survives when only cleanup raised); only when neither raises
are the handlers unregistered and the name discarded from the enabled set. -/
def disable_plugin (s : ManagerState) (name : String) : ManagerState × Bool :=
  if name ∈ s.enabled_plugins then
    match lookupA s.loader.plugin_instances name with
    | some inst =>
      if inst.cls.disableRaises then (s, false)
      else
        let s1 := setInstance s name { inst with enabledFlag := false }
        if inst.cls.cleanupRaises then (s1, false)
        else
          let s2 := unregister_plugin_events s1 name
          ({ s2 with enabled_plugins := removeS s2.enabled_plugins name }, true)
    | none =>
      let s2 := unregister_plugin_events s name
      ({ s2 with enabled_plugins := removeS s2.enabled_plugins name }, true)
  else (s, true)

/-- PluginManager.configure_plugin: stores the given config as the whole
persisted config of the name (full replacement); when an instance exists
its configure method is called, whose base implementation merges the
given dict over the current instance config via dict.update. -/
def configure_plugin (s : ManagerState) (name : String) (cfg : Config) :
    ManagerState × Bool :=
  let s1 := { s with plugin_configs := insertA s.plugin_configs name cfg }
  match lookupA s1.loader.plugin_instances name with
  | some inst =>
    (setInstance s1 name { inst with config := cfgUpdate inst.config cfg }, true)
  | none => (s1, true)

/-- PluginManager.get_plugin_instance: None for a name not in the enabled
set, even when the loader still holds an instance. -/
def get_plugin_instance (s : ManagerState) (name : String) : Option Instance :=
  if name ∈ s.enabled_plugins then PluginLoader.get_plugin_instance s.loader name
  else none

/-- PluginManager.get_available_plugins: the loaded type names. -/
def get_available_plugins (s : ManagerState) : List String :=
  keysA s.loader.loaded_plugins

/-- PluginManager.get_plugin_info: descriptor of the live instance when
one exists, otherwise rebuilt from stored metadata, otherwise None. -/
def get_plugin_info (s : ManagerState) (name : String) : Option PluginInfo :=
  match lookupA s.loader.plugin_instances name with
  | some inst => some inst.cls.info
  | none =>
    match lookupA s.loader.plugin_metadata name with
    | some md => some md
    | none => none

/-- PluginManager.validate_plugin_dependencies: vacuously true with no
info or an empty dependency list; otherwise every declared dependency
must be among the loaded type names (enabled status plays no part). -/
def validate_plugin_dependencies (s : ManagerState) (name : String) : Bool :=
  match get_plugin_info s name with
  | none => true
  | some info =>
    if info.dependencies.isEmpty then true
    else info.dependencies.all (fun d => (get_available_plugins s).contains d)

/-- PluginManager.should_enable_plugin: persisted-enabled and dependency
validation, used only during startup auto-enable. -/
def should_enable_plugin (s : ManagerState) (name : String) : Bool :=
  decide (name ∈ s.enabled_plugins) && validate_plugin_dependencies s name

/-- PluginManager.reload_plugin: snapshot enabled status and persisted
config, disable when enabled (result ignored), delegate to the loader
reload, and on success re-enable with the snapshotted config when the
plugin was enabled before. -/
def reload_plugin (env : Env) (s : ManagerState) (name : String) :
    ManagerState × Bool :=
  let was_enabled := name ∈ s.enabled_plugins
  let cfg := (lookupA s.plugin_configs name).getD []
  let s1 := if was_enabled then (disable_plugin s name).1 else s
  match PluginLoader.reload_plugin env s1.loader name with
  | (l2, true) =>
    let s2 := { s1 with loader := l2 }
    if was_enabled then enable_plugin s2 name (some cfg) else (s2, true)
  | (l2, false) => ({ s1 with loader := l2 }, false)

/-- One handler call inside trigger_event: the try block catches a raise,
logs it and falls through, so the loop records the invocation and
continues in both outcomes. -/
def runHandlers (raisesOn : Handler → Bool) : List Handler → List Handler
  | [] => []
  | h :: rest =>
    if raisesOn h then h :: runHandlers raisesOn rest
    else h :: runHandlers raisesOn rest

/-- PluginManager.trigger_event: fetch the handler list of the event and
invoke each in order with the per-handler try/except; the returned list
is the invocation trace in invocation order. -/
def trigger_event (raisesOn : Handler → Bool) (s : ManagerState) (ev : String) :
    List Handler :=
  runHandlers raisesOn (handlersFor s ev)

/-- PluginManager construction: load_config (the persisted document when
present and parsed) then discover_and_load_plugins, which loads every
discovered name and auto-enables each loaded name that is persisted
enabled and passes dependency validation. -/
def init (env : Env) (persisted : Option PersistedState) : ManagerState :=
  let s0 : ManagerState :=
    { loader := PluginLoader.empty,
      enabled_plugins := match persisted with | some p => p.enabled_plugins | none => [],
      plugin_configs := match persisted with | some p => p.plugin_configs | none => [],
      event_handlers := [] }
  let s1 := { s0 with loader := PluginLoader.load_all_plugins env s0.loader }
  (keysA s1.loader.loaded_plugins).foldl
    (fun s n => if should_enable_plugin s n then (enable_plugin s n none).1 else s) s1

end PluginManager

section HelperLemmas

open PluginManager

theorem runHandlers_eq_self (raisesOn : Handler → Bool) (l : List Handler) :
    runHandlers raisesOn l = l := by
  induction l with
  | nil => rfl
  | cons h rest ih => by_cases hr : raisesOn h <;> simp [runHandlers, hr, ih]

theorem register_event_handler_loader (s : ManagerState) (ev : String) (h : Handler) :
    (register_event_handler s ev h).loader = s.loader := rfl

theorem register_event_handler_enabled (s : ManagerState) (ev : String) (h : Handler) :
    (register_event_handler s ev h).enabled_plugins = s.enabled_plugins := rfl

theorem register_event_handler_configs (s : ManagerState) (ev : String) (h : Handler) :
    (register_event_handler s ev h).plugin_configs = s.plugin_configs := rfl

theorem register_plugin_events_loader (s : ManagerState) (inst : Instance) :
    (register_plugin_events s inst).loader = s.loader := by
  unfold register_plugin_events register_event_handler
  repeat' split
  all_goals rfl

theorem register_plugin_events_enabled (s : ManagerState) (inst : Instance) :
    (register_plugin_events s inst).enabled_plugins = s.enabled_plugins := by
  unfold register_plugin_events register_event_handler
  repeat' split
  all_goals rfl

theorem register_plugin_events_configs (s : ManagerState) (inst : Instance) :
    (register_plugin_events s inst).plugin_configs = s.plugin_configs := by
  unfold register_plugin_events register_event_handler
  repeat' split
  all_goals rfl

theorem unregister_plugin_events_loader (s : ManagerState) (name : String) :
    (unregister_plugin_events s name).loader = s.loader := by
  unfold unregister_plugin_events
  split <;> rfl

theorem unregister_plugin_events_enabled (s : ManagerState) (name : String) :
    (unregister_plugin_events s name).enabled_plugins = s.enabled_plugins := by
  unfold unregister_plugin_events
  split <;> rfl

theorem unregister_plugin_events_configs (s : ManagerState) (name : String) :
    (unregister_plugin_events s name).plugin_configs = s.plugin_configs := by
  unfold unregister_plugin_events
  split <;> rfl

theorem lookupA_map_values {α β : Type} (l : List (String × α)) (f : α → β) (k : String) :
    lookupA (l.map (fun p => (p.1, f p.2))) k = (lookupA l k).map f := by
  induction l with
  | nil => simp [lookupA]
  | cons kv rest ih =>
    obtain ⟨k2, v2⟩ := kv
    by_cases h : k2 = k <;> simp [lookupA, h, ih]

theorem handlersFor_register_self (s : ManagerState) (ev : String) (h : Handler) :
    handlersFor (register_event_handler s ev h) ev = handlersFor s ev ++ [h] := by
  unfold handlersFor register_event_handler
  simp [lookupA_insertA_self, handlersFor]

theorem handlersFor_register_other (s : ManagerState) {ev ev' : String} (h : Handler)
    (hne : ev' ≠ ev) :
    handlersFor (register_event_handler s ev h) ev' = handlersFor s ev' := by
  unfold handlersFor register_event_handler
  simp [lookupA_insertA_ne _ _ hne, handlersFor]

theorem mem_handlersFor_register (s : ManagerState) (ev' : String) (h' : Handler)
    {ev : String} {x : Handler} (hx : x ∈ handlersFor s ev) :
    x ∈ handlersFor (register_event_handler s ev' h') ev := by
  by_cases h : ev = ev'
  · subst h
    rw [handlersFor_register_self]
    exact List.mem_append_left _ hx
  · rw [handlersFor_register_other s h' h]
    exact hx

theorem mem_handlersFor_register_head (s : ManagerState) (ev : String) (h : Handler) :
    h ∈ handlersFor (register_event_handler s ev h) ev := by
  rw [handlersFor_register_self]
  exact List.mem_append_right _ (List.mem_singleton.mpr rfl)

theorem mem_insertS_self (l : List String) (n : String) : n ∈ insertS l n := by
  by_cases h : n ∈ l <;> simp [insertS, h]

theorem mem_insertS {l : List String} {n x : String} (hx : x ∈ insertS l n) :
    x = n ∨ x ∈ l := by
  by_cases h : n ∈ l <;> simp_all [insertS]

theorem not_mem_removeS_self (l : List String) (n : String) : n ∉ removeS l n := by
  simp [removeS, List.mem_filter]

theorem mem_removeS {l : List String} {n x : String} (hx : x ∈ removeS l n) : x ∈ l := by
  simp only [removeS, List.mem_filter] at hx
  exact hx.1

theorem create_plugin_instance_loaded (l : LoaderState) (name : String) (cfg : Config) :
    (PluginLoader.create_plugin_instance l name cfg).1.loaded_plugins = l.loaded_plugins := by
  unfold PluginLoader.create_plugin_instance
  repeat' split
  all_goals rfl

theorem create_plugin_instance_needs_loaded {l : LoaderState} {name : String} {cfg : Config}
    {inst : Instance}
    (h : (PluginLoader.create_plugin_instance l name cfg).2 = some inst) :
    (lookupA l.loaded_plugins name).isSome = true := by
  unfold PluginLoader.create_plugin_instance at h
  cases hl : lookupA l.loaded_plugins name with
  | none => rw [hl] at h; simp at h
  | some cls => simp [hl]

theorem mem_handlersFor_ite (c : Prop) [Decidable c] (s : ManagerState) (ev' : String)
    (h' : Handler) {ev : String} {x : Handler} (hx : x ∈ handlersFor s ev) :
    x ∈ handlersFor (if c then register_event_handler s ev' h' else s) ev := by
  by_cases hc : c
  · simp only [if_pos hc]
    exact mem_handlersFor_register s ev' h' hx
  · simpa [if_neg hc] using hx

theorem mem_handlersFor_iteM (c : Prop) [Decidable c] (s : ManagerState) (e1 e2 : String)
    (h1 h2 : Handler) {ev : String} {x : Handler} (hx : x ∈ handlersFor s ev) :
    x ∈ handlersFor
      (if c then register_event_handler (register_event_handler s e1 h1) e2 h2 else s) ev := by
  by_cases hc : c
  · simp only [if_pos hc]
    exact mem_handlersFor_register _ e2 h2 (mem_handlersFor_register s e1 h1 hx)
  · simpa [if_neg hc] using hx

/-- The routing-table facts that the claim about enable asks for: every
capability-specific handler of the instance is present under its matching
event name, the optional request and user callbacks guarded the way the
registration guards them. -/
def capabilityHandlersRegistered (s : ManagerState) (inst : Instance) : Prop :=
  (inst.cls.isLocust = true →
    Handler.bound inst.instId Method.onTestStart ∈ handlersFor s "test_start"
    ∧ Handler.bound inst.instId Method.onTestStop ∈ handlersFor s "test_stop"
    ∧ (inst.cls.hasOnUserStart = true →
        Handler.bound inst.instId Method.onUserStart ∈ handlersFor s "user_start")
    ∧ (inst.cls.hasOnUserStop = true →
        Handler.bound inst.instId Method.onUserStop ∈ handlersFor s "user_stop")
    ∧ (inst.cls.hasOnRequestSuccess = true →
        Handler.bound inst.instId Method.onRequestSuccess ∈ handlersFor s "request_success")
    ∧ (inst.cls.hasOnRequestFailure = true →
        Handler.bound inst.instId Method.onRequestFailure ∈ handlersFor s "request_failure"))
  ∧ (inst.cls.isMonitor = true →
    Handler.bound inst.instId Method.startMonitoring ∈ handlersFor s "start_monitoring"
    ∧ Handler.bound inst.instId Method.stopMonitoring ∈ handlersFor s "stop_monitoring")

theorem register_plugin_events_registers (s : ManagerState) (inst : Instance) :
    capabilityHandlersRegistered (register_plugin_events s inst) inst := by
  unfold capabilityHandlersRegistered register_plugin_events
  cases hL : inst.cls.isLocust with
  | false =>
    simp only [hL, Bool.false_eq_true, if_false, false_implies, true_and]
    intro hM
    simp only [hM, if_true]
    constructor
    · exact mem_handlersFor_register _ _ _ (mem_handlersFor_register_head _ _ _)
    · exact mem_handlersFor_register_head _ _ _
  | true =>
    simp only [hL, if_true, true_implies]
    constructor
    · refine ⟨?_, ?_, ?_, ?_, ?_, ?_⟩
      · apply mem_handlersFor_iteM
        apply mem_handlersFor_ite
        apply mem_handlersFor_ite
        apply mem_handlersFor_ite
        apply mem_handlersFor_ite
        exact mem_handlersFor_register _ _ _ (mem_handlersFor_register_head _ _ _)
      · apply mem_handlersFor_iteM
        apply mem_handlersFor_ite
        apply mem_handlersFor_ite
        apply mem_handlersFor_ite
        apply mem_handlersFor_ite
        exact mem_handlersFor_register_head _ _ _
      · intro hf
        simp only [hf, if_true]
        apply mem_handlersFor_iteM
        apply mem_handlersFor_ite
        apply mem_handlersFor_ite
        apply mem_handlersFor_ite
        exact mem_handlersFor_register_head _ _ _
      · intro hf
        simp only [hf, if_true]
        apply mem_handlersFor_iteM
        apply mem_handlersFor_ite
        apply mem_handlersFor_ite
        exact mem_handlersFor_register_head _ _ _
      · intro hf
        simp only [hf, if_true]
        apply mem_handlersFor_iteM
        apply mem_handlersFor_ite
        exact mem_handlersFor_register_head _ _ _
      · intro hf
        simp only [hf, if_true]
        apply mem_handlersFor_iteM
        exact mem_handlersFor_register_head _ _ _
    · intro hM
      simp only [hM, if_true]
      constructor
      · exact mem_handlersFor_register _ _ _ (mem_handlersFor_register_head _ _ _)
      · exact mem_handlersFor_register_head _ _ _

theorem contains_eq_true_iff (l : List String) (a : String) :
    l.contains a = true ↔ a ∈ l := by
  induction l with
  | nil => simp [List.contains]
  | cons x xs ih =>
    simp only [List.contains_cons, Bool.or_eq_true, beq_iff_eq, ih, List.mem_cons]

/-- The dependency list the manager reads for a name: from the descriptor
of the live instance when one exists, else from stored metadata, else
nothing is declared. -/
def declared_dependencies (s : ManagerState) (name : String) : List String :=
  match get_plugin_info s name with
  | some info => info.dependencies
  | none => []

end HelperLemmas

section Fixtures

/-- Fixture descriptor with no dependencies. -/
def infoPlain (nm : String) : PluginInfo :=
  { name := nm, version := "1.0.0", description := "", author := "",
    category := "report", dependencies := [], config_schema := [] }

/-- A well behaved LocustPlugin class with every optional callback. -/
def clsGood : PluginClass :=
  { info := infoPlain "alpha", initOk := true, disableRaises := false,
    cleanupRaises := false, isLocust := true, isMonitor := false,
    hasOnUserStart := true, hasOnUserStop := true,
    hasOnRequestSuccess := true, hasOnRequestFailure := true }

/-- A class like clsGood whose descriptor declares the dependency beta,
which is never loadable. -/
def clsNeedsBeta : PluginClass :=
  { clsGood with info := { infoPlain "alpha" with dependencies := ["beta"] } }

/-- A class like clsGood whose cleanup callback raises. -/
def clsCleanupRaises : PluginClass :=
  { clsGood with cleanupRaises := true }

/-- Environment where exactly one plugin file, named alpha, is discovered
and loads as the given class. -/
def envOf (cls : PluginClass) : Env :=
  { discovered := ["alpha"],
    loadResult := fun n => if n = "alpha" then some (cls, cls.info) else none }

/-- Environment with nothing discoverable or loadable. -/
def envBare : Env :=
  { discovered := [], loadResult := fun _ => none }

end Fixtures

/-- C3: for every event and every raise behaviour of the registered
handlers, trigger_event invokes each handler registered under the event
exactly once in registration order and returns normally: the invocation
trace equals the registered handler list, so a raising handler, being
caught and logged, never prevents later handlers from running. -/
theorem trigger_event_trace_eq_registered (raisesOn : Handler → Bool)
    (s : ManagerState) (ev : String) :
    PluginManager.trigger_event raisesOn s ev = PluginManager.handlersFor s ev :=
  runHandlers_eq_self raisesOn (PluginManager.handlersFor s ev)

/-- C7: validate_plugin_dependencies is true iff every declared dependency
name is among the currently loaded type names; it never reads the enabled
set, so a merely loaded and not enabled dependency suffices. -/
theorem validate_dependencies_iff_loaded (s : ManagerState) (name : String) :
    (PluginManager.validate_plugin_dependencies s name = true ↔
      ∀ d ∈ declared_dependencies s name,
        d ∈ keysA s.loader.loaded_plugins)
    ∧ (∀ e : List String,
        PluginManager.validate_plugin_dependencies { s with enabled_plugins := e } name =
          PluginManager.validate_plugin_dependencies s name) := by
  constructor
  · unfold PluginManager.validate_plugin_dependencies declared_dependencies
    cases hinfo : PluginManager.get_plugin_info s name with
    | none => simp
    | some info =>
      by_cases hd : info.dependencies.isEmpty
      · have hnil : info.dependencies = [] := by
          simpa using hd
        simp [hd, hnil]
      · simp only [hd, if_false, Bool.false_eq_true]
        rw [List.all_eq_true]
        constructor
        · intro h d hdm
          have := h d hdm
          rw [contains_eq_true_iff] at this
          simpa [PluginManager.get_available_plugins] using this
        · intro h d hdm
          rw [contains_eq_true_iff]
          simpa [PluginManager.get_available_plugins] using h d hdm
  · intro e
    rfl

section ClaimStates

/-- Manager built over the well behaved alpha plugin, nothing persisted:
alpha is loaded and not enabled. -/
def sAlpha : ManagerState := PluginManager.init (envOf clsGood) none

/-- sAlpha after an explicit successful enable of alpha: alpha is enabled,
its instance live, its handlers registered. -/
def sAlphaEnabled : ManagerState :=
  (PluginManager.enable_plugin sAlpha "alpha" none).1

/-- The instance the enable of alpha creates. -/
def instAlpha : Instance :=
  { instId := 0, cls := clsGood, enabledFlag := true, config := [] }

/-- Manager over the alpha plugin that declares the missing dependency
beta, nothing persisted. -/
def sNeedsBeta : ManagerState := PluginManager.init (envOf clsNeedsBeta) none

/-- Manager over the alpha plugin whose cleanup raises, after an explicit
successful enable of alpha. -/
def sCleanupRaises : ManagerState :=
  (PluginManager.enable_plugin (PluginManager.init (envOf clsCleanupRaises) none) "alpha" none).1

end ClaimStates

/-- C7 witness: the dependency characterization applied to the concrete
manager whose alpha plugin declares the unloaded dependency beta. -/
theorem validate_dependencies_iff_loaded_witness :
    (PluginManager.validate_plugin_dependencies sNeedsBeta "alpha" = true ↔
      ∀ d ∈ declared_dependencies sNeedsBeta "alpha",
        d ∈ keysA sNeedsBeta.loader.loaded_plugins)
    ∧ (∀ e : List String,
        PluginManager.validate_plugin_dependencies
            { sNeedsBeta with enabled_plugins := e } "alpha" =
          PluginManager.validate_plugin_dependencies sNeedsBeta "alpha") :=
  validate_dependencies_iff_loaded sNeedsBeta "alpha"

section ClaimC1

open PluginManager

/-- C1 (amended): enable_plugin returns success only if the name is already
enabled or is a currently loaded type name, and it performs no dependency
validation (validation gates only the startup auto-enable); on a fresh
success the name joins the EnabledSet and every capability-specific
handler of the instance held for the name is registered in the routing
table under its matching event name. -/
theorem enable_plugin_success_characterization (s : ManagerState) (name : String)
    (cfgOpt : Option Config)
    (hsucc : (enable_plugin s name cfgOpt).2 = true) :
    (name ∈ s.enabled_plugins ∨ (lookupA s.loader.loaded_plugins name).isSome = true)
    ∧ name ∈ (enable_plugin s name cfgOpt).1.enabled_plugins
    ∧ (name ∉ s.enabled_plugins →
        ∀ inst,
          lookupA (enable_plugin s name cfgOpt).1.loader.plugin_instances name = some inst →
          capabilityHandlersRegistered (enable_plugin s name cfgOpt).1 inst) := by
  by_cases hmem : name ∈ s.enabled_plugins
  · refine ⟨Or.inl hmem, ?_, ?_⟩
    · simp [enable_plugin, hmem]
    · intro hn
      exact absurd hmem hn
  · unfold enable_plugin at hsucc ⊢
    rw [if_neg hmem] at hsucc ⊢
    dsimp only at hsucc ⊢
    cases hc : PluginLoader.create_plugin_instance s.loader name (effConfig s name cfgOpt) with
    | mk l2 io =>
      cases io with
      | none =>
        rw [hc] at hsucc
        exact Bool.noConfusion hsucc
      | some inst =>
        refine ⟨Or.inr (create_plugin_instance_needs_loaded (by rw [hc])), ?_, ?_⟩
        · dsimp only
          rw [register_plugin_events_enabled]
          exact mem_insertS_self _ _
        · intro _ inst2 hlook
          dsimp only at hlook
          rw [register_plugin_events_loader] at hlook
          dsimp only [setInstance] at hlook
          rw [lookupA_insertA_self] at hlook
          injection hlook with h2
          subst h2
          exact register_plugin_events_registers _ _

/-- C1 counterexample: in the manager built over the single plugin alpha,
which declares the never-loadable dependency beta, dependency validation
for alpha is false, yet enable_plugin succeeds and mutates state by
adding alpha to the enabled set. -/
theorem enable_plugin_ignores_failed_dependency_validation_cex :
    validate_plugin_dependencies sNeedsBeta "alpha" = false
    ∧ (enable_plugin sNeedsBeta "alpha" none).2 = true
    ∧ "alpha" ∈ (enable_plugin sNeedsBeta "alpha" none).1.enabled_plugins := by
  refine ⟨by decide, by decide, by decide⟩

/-- C1 witness: the characterization applied to the concrete manager over
the well behaved alpha plugin. -/
theorem enable_plugin_success_characterization_witness :
    ("alpha" ∈ sAlpha.enabled_plugins
      ∨ (lookupA sAlpha.loader.loaded_plugins "alpha").isSome = true)
    ∧ "alpha" ∈ (enable_plugin sAlpha "alpha" none).1.enabled_plugins
    ∧ ("alpha" ∉ sAlpha.enabled_plugins →
        ∀ inst,
          lookupA (enable_plugin sAlpha "alpha" none).1.loader.plugin_instances "alpha"
            = some inst →
          capabilityHandlersRegistered (enable_plugin sAlpha "alpha" none).1 inst) :=
  enable_plugin_success_characterization sAlpha "alpha" none (by decide)

end ClaimC1

section ClaimC2

open PluginManager

/-- C2 (amended): for an enabled name whose instance exists and whose
disable and cleanup callbacks do not raise, disable_plugin returns
success, removes the name from the enabled set, leaves no routing-table
entry owned by that instance, and no trigger issued afterwards reaches a
handler of that instance; a raising callback is caught (the boolean
failure return is the only effect that escapes) but then disable returns
False without removing routing entries or enabled membership. -/
theorem disable_plugin_removes_routes (s : ManagerState) (name : String) (inst : Instance)
    (hmem : name ∈ s.enabled_plugins)
    (hinst : lookupA s.loader.plugin_instances name = some inst)
    (hd : inst.cls.disableRaises = false)
    (hcl : inst.cls.cleanupRaises = false) :
    (disable_plugin s name).2 = true
    ∧ name ∉ (disable_plugin s name).1.enabled_plugins
    ∧ (∀ ev h, h ∈ handlersFor (disable_plugin s name).1 ev →
        h.ownedBy inst.instId = false)
    ∧ (∀ raisesOn ev h, h ∈ trigger_event raisesOn (disable_plugin s name).1 ev →
        h.ownedBy inst.instId = false) := by
  unfold disable_plugin
  rw [if_pos hmem, hinst]
  simp only [hd, hcl, Bool.false_eq_true, if_false]
  unfold unregister_plugin_events setInstance
  dsimp only
  rw [lookupA_insertA_self]
  have hroutes : ∀ ev h,
      h ∈ handlersFor
        ({ loader := { s.loader with
              plugin_instances := insertA s.loader.plugin_instances name
                { inst with enabledFlag := false } },
           enabled_plugins := removeS s.enabled_plugins name,
           plugin_configs := s.plugin_configs,
           event_handlers := s.event_handlers.map
             (fun p => (p.1, p.2.filter (fun h => !(h.ownedBy inst.instId)))) }
          : ManagerState) ev →
      h.ownedBy inst.instId = false := by
    intro ev h hmemh
    unfold handlersFor at hmemh
    dsimp only at hmemh
    rw [lookupA_map_values] at hmemh
    cases hl : lookupA s.event_handlers ev with
    | none =>
      rw [hl] at hmemh
      simp at hmemh
    | some hs =>
      rw [hl] at hmemh
      simp only [Option.map_some', Option.getD_some] at hmemh
      have hf := (List.mem_filter.mp hmemh).2
      simpa using hf
  refine ⟨by trivial, not_mem_removeS_self _ _, hroutes, ?_⟩
  intro raisesOn ev h hmemh
  unfold trigger_event at hmemh
  rw [runHandlers_eq_self] at hmemh
  exact hroutes ev h hmemh

/-- C2 counterexample: alpha is enabled with a live instance whose cleanup
raises; disable_plugin catches the exception but returns False and
completes no state transition: alpha stays in the enabled set and the
routing table still holds the instance handler. -/
theorem disable_plugin_cleanup_raise_keeps_state_cex :
    (disable_plugin sCleanupRaises "alpha").2 = false
    ∧ "alpha" ∈ (disable_plugin sCleanupRaises "alpha").1.enabled_plugins
    ∧ Handler.bound 0 Method.onTestStart ∈
        handlersFor (disable_plugin sCleanupRaises "alpha").1 "test_start" := by
  refine ⟨by decide, by decide, by decide⟩

/-- C2 witness: the amended disable contract applied to the concrete
manager with alpha enabled. -/
theorem disable_plugin_removes_routes_witness :
    (disable_plugin sAlphaEnabled "alpha").2 = true
    ∧ "alpha" ∉ (disable_plugin sAlphaEnabled "alpha").1.enabled_plugins
    ∧ (∀ ev h, h ∈ handlersFor (disable_plugin sAlphaEnabled "alpha").1 ev →
        h.ownedBy instAlpha.instId = false)
    ∧ (∀ raisesOn ev h,
        h ∈ trigger_event raisesOn (disable_plugin sAlphaEnabled "alpha").1 ev →
        h.ownedBy instAlpha.instId = false) :=
  disable_plugin_removes_routes sAlphaEnabled "alpha" instAlpha
    (by decide) (by decide) (by decide) (by decide)

end ClaimC2

section StateEquations

open PluginManager

theorem disable_plugin_ok_eq (s : ManagerState) (name : String) (inst : Instance)
    (hmem : name ∈ s.enabled_plugins)
    (hinst : lookupA s.loader.plugin_instances name = some inst)
    (hd : inst.cls.disableRaises = false)
    (hcl : inst.cls.cleanupRaises = false) :
    disable_plugin s name =
      ({ loader := { s.loader with
            plugin_instances := insertA s.loader.plugin_instances name
              { inst with enabledFlag := false } },
         enabled_plugins := removeS s.enabled_plugins name,
         plugin_configs := s.plugin_configs,
         event_handlers := s.event_handlers.map
           (fun p => (p.1, p.2.filter (fun h => !(h.ownedBy inst.instId)))) }, true) := by
  unfold disable_plugin
  rw [if_pos hmem, hinst]
  simp only [hd, hcl, Bool.false_eq_true, if_false]
  unfold unregister_plugin_events setInstance
  dsimp only
  rw [lookupA_insertA_self]

theorem unload_plugin_ok_eq (l : LoaderState) (name : String) (inst : Instance)
    (hin : lookupA l.plugin_instances name = some inst)
    (hcl : inst.cls.cleanupRaises = false) :
    PluginLoader.unload_plugin l name =
      { loaded_plugins := eraseA l.loaded_plugins name,
        plugin_instances := eraseA l.plugin_instances name,
        plugin_metadata := eraseA l.plugin_metadata name,
        nextId := l.nextId } := by
  unfold PluginLoader.unload_plugin
  rw [hin]
  simp only [hcl, Bool.false_eq_true, if_false]

theorem load_plugin_fresh_eq (env : Env) (l : LoaderState) (name : String)
    (cls : PluginClass) (md : PluginInfo)
    (hnl : lookupA l.loaded_plugins name = none)
    (henv : env.loadResult name = some (cls, md)) :
    PluginLoader.load_plugin env l name =
      ({ l with loaded_plugins := insertA l.loaded_plugins name cls,
                plugin_metadata := insertA l.plugin_metadata name md }, some cls) := by
  unfold PluginLoader.load_plugin
  rw [hnl, henv]

theorem create_plugin_instance_fresh_eq (l : LoaderState) (name : String) (cfg : Config)
    (cls : PluginClass)
    (hld : lookupA l.loaded_plugins name = some cls)
    (hni : lookupA l.plugin_instances name = none)
    (hinit : cls.initOk = true) :
    PluginLoader.create_plugin_instance l name cfg =
      ({ l with
          plugin_instances :=
            (insertA l.plugin_instances name
              { instId := l.nextId, cls := cls, enabledFlag := false, config := cfg }),
          nextId := l.nextId + 1 },
        some { instId := l.nextId, cls := cls, enabledFlag := false, config := cfg }) := by
  unfold PluginLoader.create_plugin_instance
  rw [hld, hni]
  simp only [hinit, if_true]

theorem create_plugin_instance_existing_eq (l : LoaderState) (name : String) (cfg : Config)
    (cls : PluginClass) (inst : Instance)
    (hld : lookupA l.loaded_plugins name = some cls)
    (hei : lookupA l.plugin_instances name = some inst) :
    PluginLoader.create_plugin_instance l name cfg = (l, some inst) := by
  unfold PluginLoader.create_plugin_instance
  rw [hld, hei]

theorem enable_plugin_with_instance_eq (s : ManagerState) (name : String)
    (cfgOpt : Option Config) (cls : PluginClass) (inst : Instance)
    (hnm : name ∉ s.enabled_plugins)
    (hld : lookupA s.loader.loaded_plugins name = some cls)
    (hei : lookupA s.loader.plugin_instances name = some inst) :
    enable_plugin s name cfgOpt =
      (register_plugin_events
        { loader := { s.loader with
              plugin_instances := insertA s.loader.plugin_instances name
                { inst with enabledFlag := true } },
          enabled_plugins := insertS s.enabled_plugins name,
          plugin_configs := s.plugin_configs,
          event_handlers := s.event_handlers }
        { inst with enabledFlag := true }, true) := by
  unfold enable_plugin
  rw [if_neg hnm]
  dsimp only
  rw [create_plugin_instance_existing_eq s.loader name (effConfig s name cfgOpt) cls inst hld hei]
  unfold setInstance
  dsimp only

theorem enable_plugin_fresh_instance_eq (s : ManagerState) (name : String)
    (cfgOpt : Option Config) (cls : PluginClass)
    (hnm : name ∉ s.enabled_plugins)
    (hld : lookupA s.loader.loaded_plugins name = some cls)
    (hni : lookupA s.loader.plugin_instances name = none)
    (hinit : cls.initOk = true) :
    enable_plugin s name cfgOpt =
      (register_plugin_events
        { loader := { s.loader with
              plugin_instances := insertA
                (insertA s.loader.plugin_instances name
                  { instId := s.loader.nextId, cls := cls, enabledFlag := false,
                    config := effConfig s name cfgOpt })
                name
                { instId := s.loader.nextId, cls := cls, enabledFlag := true,
                  config := effConfig s name cfgOpt },
              nextId := s.loader.nextId + 1 },
          enabled_plugins := insertS s.enabled_plugins name,
          plugin_configs := s.plugin_configs,
          event_handlers := s.event_handlers }
        { instId := s.loader.nextId, cls := cls, enabledFlag := true,
          config := effConfig s name cfgOpt }, true) := by
  unfold enable_plugin
  rw [if_neg hnm]
  dsimp only
  rw [create_plugin_instance_fresh_eq s.loader name (effConfig s name cfgOpt) cls hld hni hinit]
  unfold setInstance
  dsimp only

end StateEquations

section ClaimC4

open PluginManager

/-- C4: reloading a plugin that is enabled with persisted config c and a
live instance holding c, whose callbacks do not raise, in an environment
where the name loads again into a class whose initialization succeeds,
returns success, and afterwards the name is in the enabled set and the
live instance holds the same config c again. -/
theorem reload_plugin_preserves_config_and_enabled (env : Env) (s : ManagerState)
    (name : String) (c : Config) (inst : Instance) (cls2 : PluginClass) (md2 : PluginInfo)
    (hmem : name ∈ s.enabled_plugins)
    (hcfg : lookupA s.plugin_configs name = some c)
    (hinst : lookupA s.loader.plugin_instances name = some inst)
    (hic : inst.config = c)
    (hd : inst.cls.disableRaises = false)
    (hcl : inst.cls.cleanupRaises = false)
    (hload : (lookupA s.loader.loaded_plugins name).isSome = true)
    (henv : env.loadResult name = some (cls2, md2))
    (hinit : cls2.initOk = true) :
    (reload_plugin env s name).2 = true
    ∧ name ∈ (reload_plugin env s name).1.enabled_plugins
    ∧ (∃ inst2,
        lookupA (reload_plugin env s name).1.loader.plugin_instances name = some inst2
        ∧ inst2.config = c) := by
  obtain ⟨cls0, hld0⟩ : ∃ cls0, lookupA s.loader.loaded_plugins name = some cls0 := by
    cases h : lookupA s.loader.loaded_plugins name with
    | none => rw [h] at hload; simp at hload
    | some cls0 => exact ⟨cls0, rfl⟩
  unfold reload_plugin
  dsimp only
  rw [if_pos hmem]
  rw [disable_plugin_ok_eq s name inst hmem hinst hd hcl]
  dsimp only
  unfold PluginLoader.reload_plugin
  dsimp only
  rw [hld0]
  rw [lookupA_insertA_self]
  dsimp only
  rw [unload_plugin_ok_eq _ name { inst with enabledFlag := false }
    (lookupA_insertA_self _ _ _) hcl]
  rw [load_plugin_fresh_eq env _ name cls2 md2 (lookupA_eraseA_self _ _) henv]
  dsimp only
  rw [hic, hcfg]
  simp only [Option.getD_some]
  by_cases hE : c.isEmpty
  · simp only [hE, if_true]
    rw [if_pos hmem]
    rw [enable_plugin_fresh_instance_eq _ name (some c) cls2
      (not_mem_removeS_self _ _) (lookupA_insertA_self _ _ _) (lookupA_eraseA_self _ _) hinit]
    refine ⟨by trivial, ?_, ?_⟩
    · dsimp only
      rw [register_plugin_events_enabled]
      exact mem_insertS_self _ _
    · dsimp only
      rw [register_plugin_events_loader]
      dsimp only
      refine ⟨_, lookupA_insertA_self _ _ _, ?_⟩
      dsimp only [effConfig]
      simp only [hE, if_true]
      rw [hcfg]
      rfl
  · have hE2 : c.isEmpty = false := by
      cases h2 : c.isEmpty with
      | false => rfl
      | true => exact absurd h2 hE
    simp only [hE2, Bool.false_eq_true, if_false]
    rw [create_plugin_instance_fresh_eq _ name c cls2
      (lookupA_insertA_self _ _ _) (lookupA_eraseA_self _ _) hinit]
    dsimp only
    rw [if_pos hmem]
    rw [enable_plugin_with_instance_eq _ name (some c) cls2 _
      (not_mem_removeS_self _ _) (lookupA_insertA_self _ _ _) (lookupA_insertA_self _ _ _)]
    refine ⟨by trivial, ?_, ?_⟩
    · dsimp only
      rw [register_plugin_events_enabled]
      exact mem_insertS_self _ _
    · dsimp only
      rw [register_plugin_events_loader]
      dsimp only
      exact ⟨_, lookupA_insertA_self _ _ _, rfl⟩

/-- The webhook config of the reload scenario in the spec. -/
def cfgW : Config := [("webhook", "x")]

/-- sAlpha after persisting the webhook config for alpha. -/
def sConfigured : ManagerState := (PluginManager.configure_plugin sAlpha "alpha" cfgW).1

/-- sConfigured after a successful enable of alpha: enabled with config cfgW. -/
def sWebhookEnabled : ManagerState := (PluginManager.enable_plugin sConfigured "alpha" none).1

/-- The instance live in sWebhookEnabled. -/
def instWebhook : Instance :=
  { instId := 0, cls := clsGood, enabledFlag := true, config := cfgW }

/-- C4 witness: the reload contract applied to the concrete manager where
alpha is enabled with the webhook config. -/
theorem reload_plugin_preserves_config_and_enabled_witness :
    (PluginManager.reload_plugin (envOf clsGood) sWebhookEnabled "alpha").2 = true
    ∧ "alpha" ∈ (PluginManager.reload_plugin (envOf clsGood) sWebhookEnabled "alpha").1.enabled_plugins
    ∧ (∃ inst2,
        lookupA (PluginManager.reload_plugin (envOf clsGood) sWebhookEnabled "alpha").1.loader.plugin_instances
          "alpha" = some inst2
        ∧ inst2.config = cfgW) :=
  reload_plugin_preserves_config_and_enabled (envOf clsGood) sWebhookEnabled "alpha" cfgW
    instWebhook clsGood clsGood.info (by decide) (by decide) (by decide) (by decide)
    (by decide) (by decide) (by decide) (by decide) (by decide)

end ClaimC4

section ClaimC5

open PluginManager

/-- Persisted state naming a plugin that never loads. -/
def persistedGhost : PersistedState :=
  { enabled_plugins := ["ghost"], plugin_configs := [] }

/-- Manager built over an empty environment from the ghost persisted
state: the persisted enabled name is kept although nothing loaded. -/
def sGhost : ManagerState := PluginManager.init envBare (some persistedGhost)

/-- C5 counterexample: after construction from a persisted file naming
ghost, ghost is in the enabled set while no type of that name is loaded,
so the subset invariant does not hold at every reachable state. -/
theorem enabled_subset_violated_at_construction_cex :
    "ghost" ∈ sGhost.enabled_plugins
    ∧ lookupA sGhost.loader.loaded_plugins "ghost" = none := by
  refine ⟨by decide, by decide⟩

/-- C5 (amended): the subset invariant EnabledSet within loaded type names
is preserved by enable_plugin and disable_plugin; it is not established
by construction, which keeps persisted enabled names that failed to
load. -/
theorem enable_disable_preserve_enabled_subset (s : ManagerState) (name : String)
    (cfgOpt : Option Config)
    (hsub : ∀ n ∈ s.enabled_plugins, n ∈ keysA s.loader.loaded_plugins) :
    (∀ n ∈ (enable_plugin s name cfgOpt).1.enabled_plugins,
        n ∈ keysA (enable_plugin s name cfgOpt).1.loader.loaded_plugins)
    ∧ (∀ n ∈ (disable_plugin s name).1.enabled_plugins,
        n ∈ keysA (disable_plugin s name).1.loader.loaded_plugins) := by
  constructor
  · by_cases hmem : name ∈ s.enabled_plugins
    · simp only [enable_plugin, if_pos hmem]
      exact hsub
    · unfold enable_plugin
      rw [if_neg hmem]
      dsimp only
      cases hc : PluginLoader.create_plugin_instance s.loader name (effConfig s name cfgOpt) with
      | mk l2 io =>
        have hl2 : l2.loaded_plugins = s.loader.loaded_plugins := by
          have hkeep := create_plugin_instance_loaded s.loader name (effConfig s name cfgOpt)
          rw [hc] at hkeep
          exact hkeep
        cases io with
        | none =>
          intro n hn
          dsimp only at hn ⊢
          rw [hl2]
          exact hsub n hn
        | some inst =>
          intro n hn
          dsimp only at hn ⊢
          rw [register_plugin_events_enabled] at hn
          rw [register_plugin_events_loader]
          dsimp only [setInstance] at hn ⊢
          rw [hl2]
          rcases mem_insertS hn with h | h
          · subst h
            have hsome : (lookupA s.loader.loaded_plugins n).isSome = true :=
              create_plugin_instance_needs_loaded (by rw [hc])
            cases hlk : lookupA s.loader.loaded_plugins n with
            | none => rw [hlk] at hsome; simp at hsome
            | some cls => exact mem_keysA_of_lookupA hlk
          · exact hsub n h
  · by_cases hmem : name ∈ s.enabled_plugins
    · cases hinst : lookupA s.loader.plugin_instances name with
      | none =>
        unfold disable_plugin
        rw [if_pos hmem, hinst]
        unfold unregister_plugin_events
        rw [hinst]
        intro n hn
        dsimp only at hn ⊢
        exact hsub n (mem_removeS hn)
      | some inst =>
        unfold disable_plugin
        rw [if_pos hmem, hinst]
        cases hd : inst.cls.disableRaises with
        | true =>
          simp only [hd, if_true]
          exact hsub
        | false =>
          simp only [hd, Bool.false_eq_true, if_false]
          cases hcl : inst.cls.cleanupRaises with
          | true =>
            simp only [hcl, if_true]
            intro n hn
            dsimp only [setInstance] at hn ⊢
            exact hsub n hn
          | false =>
            simp only [hcl, Bool.false_eq_true, if_false]
            unfold unregister_plugin_events setInstance
            dsimp only
            rw [lookupA_insertA_self]
            intro n hn
            dsimp only at hn ⊢
            exact hsub n (mem_removeS hn)
    · unfold disable_plugin
      rw [if_neg hmem]
      exact hsub

/-- C5 witness: the preservation applied to the concrete manager with
alpha enabled. -/
theorem enable_disable_preserve_enabled_subset_witness :
    (∀ n ∈ (enable_plugin sAlphaEnabled "alpha" none).1.enabled_plugins,
        n ∈ keysA (enable_plugin sAlphaEnabled "alpha" none).1.loader.loaded_plugins)
    ∧ (∀ n ∈ (disable_plugin sAlphaEnabled "alpha").1.enabled_plugins,
        n ∈ keysA (disable_plugin sAlphaEnabled "alpha").1.loader.loaded_plugins) :=
  enable_disable_preserve_enabled_subset sAlphaEnabled "alpha" none (by decide)

end ClaimC5

section MoreHelpers

open PluginManager

theorem enable_plugin_of_mem (s : ManagerState) (name : String) (cfgOpt : Option Config)
    (h : name ∈ s.enabled_plugins) : enable_plugin s name cfgOpt = (s, true) := by
  unfold enable_plugin
  rw [if_pos h]

theorem disable_plugin_of_not_mem (s : ManagerState) (name : String)
    (h : name ∉ s.enabled_plugins) : disable_plugin s name = (s, true) := by
  unfold disable_plugin
  rw [if_neg h]

theorem enable_plugin_mem_of_success (s : ManagerState) (name : String)
    (cfgOpt : Option Config) (hsucc : (enable_plugin s name cfgOpt).2 = true) :
    name ∈ (enable_plugin s name cfgOpt).1.enabled_plugins := by
  by_cases hmem : name ∈ s.enabled_plugins
  · simp only [enable_plugin, if_pos hmem]
    exact hmem
  · unfold enable_plugin at hsucc ⊢
    rw [if_neg hmem] at hsucc ⊢
    dsimp only at hsucc ⊢
    cases hc : PluginLoader.create_plugin_instance s.loader name (effConfig s name cfgOpt) with
    | mk l2 io =>
      cases io with
      | none =>
        rw [hc] at hsucc
        exact Bool.noConfusion hsucc
      | some inst =>
        dsimp only
        rw [register_plugin_events_enabled]
        exact mem_insertS_self _ _

end MoreHelpers

section ClaimC6

open PluginManager

/-- A loader that has loaded and instantiated the alpha plugin of the
given class with the empty config. -/
def loaderWith (cls : PluginClass) : LoaderState :=
  (PluginLoader.create_plugin_instance
    (PluginLoader.load_plugin (envOf cls) PluginLoader.empty "alpha").1 "alpha" []).1

/-- C6 (amended): unload_plugin removes the LoadedType entry and the
metadata entry in every case; the instance entry is removed only when no
instance exists or its cleanup does not raise, since the map deletion
sits in the same try block after the cleanup call. -/
theorem unload_plugin_removes_type_and_metadata (l : LoaderState) (name : String) :
    lookupA (PluginLoader.unload_plugin l name).loaded_plugins name = none
    ∧ lookupA (PluginLoader.unload_plugin l name).plugin_metadata name = none
    ∧ (∀ inst, lookupA l.plugin_instances name = some inst →
        inst.cls.cleanupRaises = false →
        lookupA (PluginLoader.unload_plugin l name).plugin_instances name = none) := by
  unfold PluginLoader.unload_plugin
  cases hin : lookupA l.plugin_instances name with
  | none =>
    refine ⟨lookupA_eraseA_self _ _, lookupA_eraseA_self _ _, ?_⟩
    intro inst h _
    exact Option.noConfusion h
  | some inst =>
    cases hcr : inst.cls.cleanupRaises with
    | true =>
      simp only [hcr, if_true]
      refine ⟨lookupA_eraseA_self _ _, lookupA_eraseA_self _ _, ?_⟩
      intro inst2 h2 hc2
      injection h2 with h3
      rw [← h3] at hc2
      rw [hcr] at hc2
      exact Bool.noConfusion hc2
    | false =>
      simp only [hcr, Bool.false_eq_true, if_false]
      refine ⟨lookupA_eraseA_self _ _, lookupA_eraseA_self _ _, ?_⟩
      intro inst2 _ _
      exact lookupA_eraseA_self _ _

/-- C6 counterexample: in the loader holding the alpha instance whose
cleanup raises, unload leaves the instance in the instance map while
removing the loaded type, so the instance is not removed in all cases. -/
theorem unload_plugin_keeps_instance_on_cleanup_raise_cex :
    lookupA (PluginLoader.unload_plugin (loaderWith clsCleanupRaises) "alpha").plugin_instances
        "alpha"
      = some { instId := 0, cls := clsCleanupRaises, enabledFlag := false, config := [] }
    ∧ lookupA (PluginLoader.unload_plugin (loaderWith clsCleanupRaises) "alpha").loaded_plugins
        "alpha" = none := by
  refine ⟨by decide, by decide⟩

/-- C6 witness: the amended unload contract applied to the loader holding
the well behaved alpha instance, whose cleanup does not raise. -/
theorem unload_plugin_removes_type_and_metadata_witness :
    lookupA (PluginLoader.unload_plugin (loaderWith clsGood) "alpha").loaded_plugins "alpha" = none
    ∧ lookupA (PluginLoader.unload_plugin (loaderWith clsGood) "alpha").plugin_metadata "alpha" = none
    ∧ lookupA (PluginLoader.unload_plugin (loaderWith clsGood) "alpha").plugin_instances "alpha" = none := by
  have h := unload_plugin_removes_type_and_metadata (loaderWith clsGood) "alpha"
  exact ⟨h.1, h.2.1, h.2.2 { instId := 0, cls := clsGood, enabledFlag := false, config := [] }
    (by decide) (by decide)⟩

end ClaimC6

section ClaimC8

open PluginManager

/-- C8: a second enable of an already successfully enabled name is a pure
success no-op (same observable state), and disable of a name not enabled
is a pure success no-op. -/
theorem enable_idempotent_and_disable_noop (s : ManagerState) (name : String)
    (cfg1 cfg2 : Option Config) :
    ((enable_plugin s name cfg1).2 = true →
      enable_plugin (enable_plugin s name cfg1).1 name cfg2
        = ((enable_plugin s name cfg1).1, true))
    ∧ (name ∉ s.enabled_plugins → disable_plugin s name = (s, true)) := by
  constructor
  · intro hsucc
    exact enable_plugin_of_mem _ name cfg2 (enable_plugin_mem_of_success s name cfg1 hsucc)
  · intro hnm
    exact disable_plugin_of_not_mem s name hnm

/-- C8 witness: both no-op contracts applied to the concrete manager over
alpha. -/
theorem enable_idempotent_and_disable_noop_witness :
    enable_plugin (enable_plugin sAlpha "alpha" none).1 "alpha" none
      = ((enable_plugin sAlpha "alpha" none).1, true)
    ∧ disable_plugin sAlpha "alpha" = (sAlpha, true) :=
  ⟨(enable_idempotent_and_disable_noop sAlpha "alpha" none none).1 (by decide),
   (enable_idempotent_and_disable_noop sAlpha "alpha" none none).2 (by decide)⟩

end ClaimC8

section ClaimC9

open PluginManager

/-- C9: configure_plugin twice with c1 then c2 leaves the persisted config
of the name equal to exactly c2 (full replacement), while a live instance
is configured through the merging dict.update of the base interface, so
its final config answers lookups through c2, then c1, then the prior
instance config: a key of c1 absent from c2 is retained by the instance
yet absent from the persisted c2. -/
theorem configure_twice_replaces_persisted_merges_instance (s : ManagerState)
    (name : String) (c1 c2 : Config) (inst : Instance)
    (hinst : lookupA s.loader.plugin_instances name = some inst) :
    lookupA ((configure_plugin (configure_plugin s name c1).1 name c2).1).plugin_configs name
      = some c2
    ∧ (∃ inst2,
        lookupA
          ((configure_plugin (configure_plugin s name c1).1 name c2).1).loader.plugin_instances
          name = some inst2
        ∧ ∀ k, lookupA inst2.config k =
            ((lookupA c2 k).orElse (fun _ =>
              (lookupA c1 k).orElse (fun _ => lookupA inst.config k)))) := by
  unfold configure_plugin
  dsimp only
  rw [hinst]
  dsimp only [setInstance]
  rw [lookupA_insertA_self]
  dsimp only
  refine ⟨lookupA_insertA_self _ _ _, ?_⟩
  refine ⟨_, lookupA_insertA_self _ _ _, ?_⟩
  intro k
  dsimp only
  rw [lookupA_cfgUpdate]
  simp only [lookupA_cfgUpdate]

/-- C9 witness: the two configure calls on the concrete enabled alpha,
where c1 binds keys a and b and c2 rebinds only b. -/
theorem configure_twice_replaces_persisted_merges_instance_witness :
    lookupA ((configure_plugin (configure_plugin sAlphaEnabled "alpha" [("a", "1"), ("b", "2")]).1
        "alpha" [("b", "3")]).1).plugin_configs "alpha" = some [("b", "3")]
    ∧ (∃ inst2,
        lookupA ((configure_plugin (configure_plugin sAlphaEnabled "alpha"
            [("a", "1"), ("b", "2")]).1 "alpha" [("b", "3")]).1).loader.plugin_instances
          "alpha" = some inst2
        ∧ ∀ k, lookupA inst2.config k =
            ((lookupA [("b", "3")] k).orElse (fun _ =>
              (lookupA [("a", "1"), ("b", "2")] k).orElse
                (fun _ => lookupA instAlpha.config k)))) :=
  configure_twice_replaces_persisted_merges_instance sAlphaEnabled "alpha"
    [("a", "1"), ("b", "2")] [("b", "3")] instAlpha (by decide)

end ClaimC9

section ClaimC10

open PluginManager

/-- C10: the manager get_plugin_instance answers none for any name not in
the enabled set; in particular after a successful disable the manager
answers none although the loader still holds the cleaned-up instance in
its map. -/
theorem get_plugin_instance_none_when_not_enabled (s : ManagerState) (name : String) :
    (name ∉ s.enabled_plugins → get_plugin_instance s name = none)
    ∧ (∀ inst, name ∈ s.enabled_plugins →
        lookupA s.loader.plugin_instances name = some inst →
        inst.cls.disableRaises = false → inst.cls.cleanupRaises = false →
        get_plugin_instance (disable_plugin s name).1 name = none
        ∧ PluginLoader.get_plugin_instance (disable_plugin s name).1.loader name
            = some { inst with enabledFlag := false }) := by
  constructor
  · intro hnm
    unfold get_plugin_instance
    rw [if_neg hnm]
  · intro inst hmem hinst hd hcl
    rw [disable_plugin_ok_eq s name inst hmem hinst hd hcl]
    constructor
    · unfold get_plugin_instance
      rw [if_neg (not_mem_removeS_self _ _)]
    · unfold PluginLoader.get_plugin_instance
      dsimp only
      exact lookupA_insertA_self _ _ _

/-- C10 witness: alpha not enabled in the fresh manager answers none; after
disabling the enabled alpha the manager answers none while the loader
still holds the instance. -/
theorem get_plugin_instance_none_when_not_enabled_witness :
    get_plugin_instance sAlpha "alpha" = none
    ∧ get_plugin_instance (disable_plugin sAlphaEnabled "alpha").1 "alpha" = none
    ∧ PluginLoader.get_plugin_instance (disable_plugin sAlphaEnabled "alpha").1.loader "alpha"
        = some { instAlpha with enabledFlag := false } :=
  ⟨(get_plugin_instance_none_when_not_enabled sAlpha "alpha").1 (by decide),
   ((get_plugin_instance_none_when_not_enabled sAlphaEnabled "alpha").2 instAlpha
      (by decide) (by decide) (by decide) (by decide)).1,
   ((get_plugin_instance_none_when_not_enabled sAlphaEnabled "alpha").2 instAlpha
      (by decide) (by decide) (by decide) (by decide)).2⟩

end ClaimC10

end Plugins
